import Mathlib

/-!
# Naifuru — verification of the configuration/validation/grouping core

Shallow embedding of the Rust sources of the Naifuru converter
(`src/analysis_config_file.rs`, `src/analysis_config_file_parser.rs`,
`src/analyze_config_file_parser.rs`, `src/cli.rs`, `src/error.rs`,
`src/extractor/mod.rs`, `src/extractor/tw_paleart_sac.rs`), together with
theorems settling the specification's claims about validation, grouping,
extraction dispatch and exit codes.

Modelling conventions:
* Filesystem queries (`Path::exists`, `Path::is_file`, `Path::is_dir`) are
  external state; they are passed in as a record of boolean oracles `FS`.
* Paths are modelled as strings; `std::path::Path::extension` is modelled on
  the common shapes that occur here (a final component split at its last dot,
  a leading dot yielding no extension); `..` components are not modelled.
* `u32` grouping keys are used only up to equality, so they are modelled as
  `Nat`.
* `todo!()` (a Rust panic) is modelled by the `PanicOr.panics` constructor,
  explicitly distinct from any returned value.
* Rust `HashMap`/`HashSet` iteration order is unspecified at the source
  level; wherever the code iterates one, the embedding takes the iteration
  order as an explicit parameter constrained to be an enumeration of the
  container's keys (`IsIterOrder`), or — where only the set of elements can
  matter — uses insertion order.
-/

namespace Naifuru

/-- Boolean filesystem oracles standing for `Path::exists` / `is_file` /
`is_dir` as observed during one validation run. -/
structure FS where
  pathExists : String → Bool
  isFile : String → Bool
  isDir : String → Bool

/-- ASCII lowercasing, modelling Rust `str::to_lowercase` on the ASCII
extension strings this program compares (Unicode case folding never differs
from ASCII folding on the extensions involved). -/
def to_lowercase (s : String) : String :=
  String.mk (s.toList.map Char.toLower)

/-- `std::path::Path::extension`: take the final path component (after the
last `/`), split it at its last `.`; no dot, or the only dot leading the
component, means no extension. -/
def extensionOf (path : String) : Option String :=
  let name := (path.toList.reverse.takeWhile (fun c => !(c == '/'))).reverse
  let revName := name.reverse
  let ext := revName.takeWhile (fun c => !(c == '.'))
  if ext.length == revName.length then none
  else if ext.length + 1 == revName.length then none
  else some (String.mk ext.reverse)

/-- `From` — file format before conversion (src/analysis_config_file.rs). -/
inductive From
  | jpNiedKnet
  | usScsnV2
  | nzGeonetV1a
  | nzGeonetV2a
  | twPalertSac
  | tkAfadAsc
  deriving DecidableEq

def From.to_snake_case : From → String
  | .jpNiedKnet => "jp_nied_knet"
  | .usScsnV2 => "us_scsn_v2"
  | .nzGeonetV1a => "nz_geonet_v1a"
  | .nzGeonetV2a => "nz_geonet_v2a"
  | .twPalertSac => "tw_palert_sac"
  | .tkAfadAsc => "tk_afad_asc"

/-- `To` — file format after conversion. -/
inductive To
  | jpJmaCsv
  | jpStera3dTxt
  deriving DecidableEq

/-- `AccAxis` — acceleration axis of a file entry. -/
inductive AccAxis
  | ns
  | ew
  | ud
  deriving DecidableEq

def AccAxis.as_str : AccAxis → String
  | .ns => "ns"
  | .ew => "ew"
  | .ud => "ud"

/-- `NameFormat` (src/analysis_config_file.rs). -/
inductive NameFormat
  | yyyymmddHhmmssSnN
  deriving DecidableEq

/-- `MULTIPLE_AXIS_TYPE`: formats whose axes live in separate files. -/
def MULTIPLE_AXIS_TYPE : List From := [From.jpNiedKnet, From.tkAfadAsc]

/-- `ConfigValidationErr` (src/error.rs). -/
inductive ConfigValidationErr
  | invalidExtension (possible : String) (actual : String)
  | noExtension (path : String)
  | pathDoesNotExist (path : String)
  | pathIsNotFile (path : String)
  | mismatchedAccAxis (fmt : String) (name : String) (id : Nat)
  | duplicateAccAxis (fmt : String) (name : String) (id : Nat)
  | requiredAccAxis (name : String) (id : Nat)
  | duplicateNames (names : String)
  deriving DecidableEq

/-- `AnalysisConfigErr` (src/error.rs); the `toml::de::Error` and
`IoErrWrapper` payloads are carried as their rendered messages. -/
inductive AnalysisConfigErr
  | validation (e : ConfigValidationErr)
  | parse (msg : String)
  | io (msg : String)
  deriving DecidableEq

/-- `ArgsValidationErr` (src/error.rs). -/
inductive ArgsValidationErr
  | noExtension (path : String)
  | invalidExtension (actual : String) (expected : String)
  | pathDoesNotExist (path : String)
  | pathIsNotFile (path : String)
  | pathIsNotDirectory (path : String)
  deriving DecidableEq

/-- `CliErr` (src/error.rs). -/
inductive CliErr
  | validation (e : ArgsValidationErr)
  deriving DecidableEq

/-- `DataExtractionErr` (src/error.rs). -/
inductive DataExtractionErr
  | invalidStructure (path : String)
  deriving DecidableEq

/-- `AnalysisErr` (src/error.rs). -/
inductive AnalysisErr
  | extraction (e : DataExtractionErr)
  deriving DecidableEq

/-- `AppError` — the top-level error type (src/error.rs). -/
inductive AppError
  | cli (e : CliErr)
  | analysisConfig (e : AnalysisConfigErr)
  | analysis (e : AnalysisErr)
  deriving DecidableEq

def CliErr.exit_code : CliErr → Int
  | .validation _ => 2

def AnalysisConfigErr.exit_code : AnalysisConfigErr → Int
  | .validation _ => 3
  | .parse _ => 5
  | .io _ => 4

def AnalysisErr.exit_code : AnalysisErr → Int
  | .extraction _ => 6

def AppError.exit_code : AppError → Int
  | .cli e => e.exit_code
  | .analysisConfig e => e.exit_code
  | .analysis e => e.exit_code

/-- The five failure categories of the CLI surface contract (spec §6): CLI
argument validation, configuration validation, configuration parse, I/O, and
extraction. -/
inductive FailureCategory
  | cliArgs
  | configValidation
  | configParse
  | ioFailure
  | extraction
  deriving DecidableEq

/-- Which failure category an `AppError` belongs to, read off the error
constructors of src/error.rs. -/
def AppError.category : AppError → FailureCategory
  | .cli _ => .cliArgs
  | .analysisConfig (.validation _) => .configValidation
  | .analysisConfig (.parse _) => .configParse
  | .analysisConfig (.io _) => .ioFailure
  | .analysis _ => .extraction

/-- `FileConfig` (src/analysis_config_file.rs). -/
structure FileConfig where
  path : String
  acc_axis : Option AccAxis
  deriving DecidableEq

/-- `GroupConfig`. -/
structure GroupConfig where
  files : List FileConfig
  deriving DecidableEq

/-- `ConversionConfig`. -/
structure ConversionConfig where
  name : String
  «from» : From
  «to» : To
  group : List GroupConfig
  deriving DecidableEq

/-- `GlobalConfig`. -/
structure GlobalConfig where
  name_format : NameFormat
  deriving DecidableEq

/-- `Config` (src/analysis_config_file.rs). -/
structure Config where
  global : GlobalConfig
  conversion : List ConversionConfig
  deriving DecidableEq

/-- The error list a `Result` contributes under the source's
`let _ = r.map_err(|e| errors.push(e))` pattern. -/
def errList {ε α : Type} : Except ε α → List ε
  | .error e => [e]
  | .ok _ => []

/-- The error list a sub-validation contributes under the source's
`let _ = r.map_err(|e| errors.extend(e))` pattern: its collected errors on
failure, nothing on success. -/
def errsOf {ε : Type} : Except (List ε) Unit → List ε
  | .error es => es
  | .ok _ => []

/-- `FileConfig::validate_extension_for_acceptable_exts`. -/
def FileConfig.validate_extension_for_acceptable_exts (f : FileConfig)
    (acceptable_exts : List String) : Except AnalysisConfigErr Unit :=
  match (extensionOf f.path).map to_lowercase with
  | some extension =>
    if acceptable_exts.contains extension then .ok ()
    else .error (.validation (.invalidExtension
        (String.intercalate ", " acceptable_exts) extension))
  | none => .error (.validation (.noExtension f.path))

/-- `FileConfig::validate_path`. -/
def FileConfig.validate_path (f : FileConfig) (fs : FS) :
    Except AnalysisConfigErr Unit :=
  if !(fs.pathExists f.path) then .error (.validation (.pathDoesNotExist f.path))
  else if !(fs.isFile f.path) then .error (.validation (.pathIsNotFile f.path))
  else .ok ()

/-- `FileConfig::validate`: runs the extension check and the path check,
collecting both errors. -/
def FileConfig.validate (f : FileConfig) (fs : FS) (acceptable_exts : List String) :
    Except (List AnalysisConfigErr) Unit :=
  let errors := errList (f.validate_extension_for_acceptable_exts acceptable_exts)
      ++ errList (f.validate_path fs)
  if errors.isEmpty then .ok () else .error errors

/-- The `for file in &self.files` loop of
`GroupConfig::validate_file_by_acc_axis` in the multi-axis branch: the
mutable `required_axis` vector is threaded through; a declared axis found in
it is removed (`position` + `remove`), one not found yields
`DuplicateAccAxis`, an undeclared axis yields `RequiredAccAxis`. -/
def acc_axis_loop (fmt : From) (name : String) (id : Nat) :
    List FileConfig → List String → List AnalysisConfigErr
  | [], _ => []
  | file :: rest, required_axis =>
    match file.acc_axis with
    | some acc_axis =>
      if required_axis.contains acc_axis.as_str then
        acc_axis_loop fmt name id rest (required_axis.erase acc_axis.as_str)
      else
        AnalysisConfigErr.validation (.duplicateAccAxis fmt.to_snake_case name id)
          :: acc_axis_loop fmt name id rest required_axis
    | none =>
      AnalysisConfigErr.validation (.requiredAccAxis name id)
        :: acc_axis_loop fmt name id rest required_axis

/-- `GroupConfig::validate_file_by_acc_axis`. Note that in the multi-axis
branch nothing inspects the leftover `required_axis` after the loop: an axis
that never appears produces no error. -/
def GroupConfig.validate_file_by_acc_axis (g : GroupConfig) (fmt : From)
    (name : String) (id : Nat) : Except (List AnalysisConfigErr) Unit :=
  let errors :=
    if fmt ∈ MULTIPLE_AXIS_TYPE then
      acc_axis_loop fmt name id g.files ["ns", "ew", "ud"]
    else
      g.files.flatMap (fun file =>
        if file.acc_axis.isSome then
          [AnalysisConfigErr.validation
            (.mismatchedAccAxis fmt.to_snake_case name id)]
        else [])
  if errors.isEmpty then .ok () else .error errors

/-- `GroupConfig::validate`. The source first collects every per-file
violation into `errors`, then calls
`self.validate_file_by_acc_axis(from, name, id)?` — the `?` operator
propagates the axis errors alone, discarding the collected `errors`. -/
def GroupConfig.validate (g : GroupConfig) (fs : FS) (fmt : From)
    (acceptable_exts : List String) (name : String) (id : Nat) :
    Except (List AnalysisConfigErr) Unit :=
  let errors := g.files.flatMap (fun file => errsOf (file.validate fs acceptable_exts))
  match g.validate_file_by_acc_axis fmt name id with
  | .error es => .error es
  | .ok _ => if errors.isEmpty then .ok () else .error errors

/-- `ConversionConfig::assign_ext_based_on_from`. -/
def ConversionConfig.assign_ext_based_on_from : From → List String
  | .jpNiedKnet => ["ns", "ew", "ud"]
  | .usScsnV2 => ["v2"]
  | .nzGeonetV1a => ["v1a"]
  | .nzGeonetV2a => ["v2a"]
  | .twPalertSac => ["sac"]
  | .tkAfadAsc => ["asc"]

/-- `ConversionConfig::validate`: validates each group (1-based id),
accumulating all group errors. -/
def ConversionConfig.validate (c : ConversionConfig) (fs : FS) :
    Except (List AnalysisConfigErr) Unit :=
  let errors := c.group.enum.flatMap (fun p =>
    errsOf (p.2.validate fs c.«from»
      (ConversionConfig.assign_ext_based_on_from c.«from») c.name (p.1 + 1)))
  if errors.isEmpty then .ok () else .error errors

/-- `hashset_to_string`: one `writeln!` per element. Rust iterates the
`HashSet` in unspecified order; the embedding keeps the set as an
insertion-ordered duplicate-free list, and no theorem below depends on the
line order of this string. -/
def hashset_to_string (set : List String) : String :=
  String.join (set.map (fun item => item ++ "\n"))

/-- The `for name in all_names` loop of `Config::validate_duplicate_name`:
`duplicate_name_set` is the `HashSet` as an insertion-ordered list;
`insert` returning false (element already present) aborts the whole scan
with a single `DuplicateNames` error carrying the set accumulated so far. -/
def validate_duplicate_name_loop :
    List String → List String → Except AnalysisConfigErr Unit
  | [], _ => .ok ()
  | name :: rest, duplicate_name_set =>
    if duplicate_name_set.contains name then
      .error (.validation (.duplicateNames (hashset_to_string duplicate_name_set)))
    else
      validate_duplicate_name_loop rest (duplicate_name_set ++ [name])

/-- `Config::validate_duplicate_name`. -/
def Config.validate_duplicate_name (all_names : List String) :
    Except AnalysisConfigErr Unit :=
  validate_duplicate_name_loop all_names []

/-- `Config::validate`: per-conversion errors are collected first, then the
duplicate-name check's error (if any) is pushed after them. -/
def Config.validate (cfg : Config) (fs : FS) : Except (List AppError) Unit :=
  let conv_errors := cfg.conversion.flatMap (fun conv =>
    (errsOf (conv.validate fs)).map AppError.analysisConfig)
  let all_names := cfg.conversion.map ConversionConfig.name
  let dup_errors :=
    (errList (Config.validate_duplicate_name all_names)).map AppError.analysisConfig
  let errors := conv_errors ++ dup_errors
  if errors.isEmpty then .ok () else .error errors

/-- `Args::validate_output_dir_path` (src/cli.rs): checks that the output
path exists and is a directory; on failure it returns the joined error
messages (the function takes `&self` and performs no filesystem mutation —
in particular it never creates the directory). -/
def Args.validate_output_dir_path (fs : FS) (path : String) :
    Except String Unit :=
  let errors : List String :=
    if !(fs.pathExists path) then ["Path does not exist: " ++ path]
    else if !(fs.isDir path) then ["Path is not a directory: " ++ path]
    else []
  if errors.isEmpty then .ok ()
  else .error ("Multiple validation errors:\n" ++ String.intercalate "\n" errors)

/-- The result of running a Rust expression that may `panic!`/`todo!`:
either it aborts (`panics`) or it produces a value. -/
inductive PanicOr (α : Type)
  | panics
  | value (a : α)
  deriving DecidableEq

/-- `ExtractedData` (src/extractor/mod.rs). Its two payload structs hold
f32/f64 sample vectors; since no extractor in the sources ever constructs a
value of this type (every body is `todo!()`), the floating-point payloads
are modelled abstractly by bare constructors. -/
inductive ExtractedData
  | jpStera3dTxt
  | jpJmaCsv
  deriving DecidableEq

/-- The sole `Extractor` implementation present in the sources:
`TwPalertSacExtractor` (src/extractor/tw_paleart_sac.rs), holding the
unextracted `ConversionConfig`. -/
inductive Extractor
  | twPalertSacExtractor (unextracted : ConversionConfig)
  deriving DecidableEq

/-- `TwPalertSacExtractor::extract`: its body is `todo!()` — it panics. -/
def Extractor.extract : Extractor → PanicOr (Except (List AppError) ExtractedData)
  | .twPalertSacExtractor _ => .panics

/-- `create_extractor` (src/extractor/mod.rs): every arm except
`TwPalertSac` is `todo!()` — a panic, not an error value. -/
def create_extractor (conversion : ConversionConfig) : PanicOr Extractor :=
  match conversion.«from» with
  | From.jpNiedKnet => .panics
  | From.usScsnV2 => .panics
  | From.nzGeonetV1a => .panics
  | From.nzGeonetV2a => .panics
  | From.twPalertSac => .value (.twPalertSacExtractor conversion)
  | From.tkAfadAsc => .panics

/-!
## The parser-side configuration and `group_by_key`

`src/analysis_config_file_parser.rs` and `src/analyze_config_file_parser.rs`
define `Config::group_by_key` with textually identical bodies (the two
`Conversion` structs differ only in the types of their `from`/`to` fields,
which `group_by_key` never touches); the typed variant of
`analysis_config_file_parser.rs` is embedded here.
-/

namespace Parser

/-- `ConversionFrom` (src/analysis_config_file_parser.rs). -/
inductive ConversionFrom
  | jpNiedKnet
  | usScsnV2
  | nzGeonetV1a
  | nzGeonetV2a
  | twPalertSac
  | tkAfadAsc
  deriving DecidableEq

/-- `ConversionTo`. -/
inductive ConversionTo
  | jpJmaCsv
  | jpStera3dTxt
  deriving DecidableEq

/-- `Group`: one file entry with its optional axis component and optional
`u32` grouping key (keys are only compared for equality, so `Nat`). -/
structure Group where
  path : String
  component : Option String
  g_key : Option Nat
  deriving DecidableEq

/-- `Conversion`. -/
structure Conversion where
  «from» : ConversionFrom
  «to» : ConversionTo
  groups : List Group
  deriving DecidableEq

/-- `NameFormat` (parser side). -/
inductive PNameFormat
  | yyyymmddHhmmssSnN
  deriving DecidableEq

/-- `GlobalSettings`. -/
structure GlobalSettings where
  name_format : PNameFormat
  acc_calculate : Bool
  unit_conversion : Bool
  deriving DecidableEq

/-- `GlobalConfig` (parser side). -/
structure PGlobalConfig where
  config : GlobalSettings
  deriving DecidableEq

/-- `Config` (parser side). -/
structure Config where
  conversions : List Conversion
  global : PGlobalConfig
  deriving DecidableEq

/-- The bucket a key holds after the grouping loop
`grouped.entry(group.g_key).or_default().push(group)`: every entry of the
conversion with that key, in list order (`HashMap` buckets are pushed in
iteration order). -/
def bucket (groups : List Group) (k : Option Nat) : List Group :=
  groups.filter (fun g => g.g_key == k)

/-- What it means for `order` to be the key sequence yielded by iterating
the `HashMap` built from `groups`: each key exactly once, exactly the keys
that occur, in some unspecified order (Rust's `HashMap` iteration order is
arbitrary — `RandomState` is randomly seeded per map). -/
def IsIterOrder (groups : List Group) (order : List (Option Nat)) : Prop :=
  order.Nodup ∧ (∀ k ∈ order, k ∈ groups.map Group.g_key)
    ∧ (∀ k ∈ groups.map Group.g_key, k ∈ order)

instance (groups : List Group) (order : List (Option Nat)) :
    Decidable (IsIterOrder groups order) :=
  decidable_of_iff (order.Nodup ∧ (∀ k ∈ order, k ∈ groups.map Group.g_key)
    ∧ (∀ k ∈ groups.map Group.g_key, k ∈ order)) Iff.rfl

/-- `Config::group_by_key`, with the per-conversion `HashMap` iteration
orders passed explicitly: for each conversion (in list order) the map is
iterated in its given order, pushing each key's bucket. -/
def Config.group_by_key_with (cfg : Config) (ords : List (List (Option Nat))) :
    List (List Group) :=
  (cfg.conversions.zip ords).flatMap (fun p => p.2.map (fun k => bucket p.1.groups k))

/-- `ords` is a possible family of iteration orders for `cfg`'s
conversions: one order per conversion, each enumerating that conversion's
keys. -/
def AdmissibleIterOrders (cfg : Config) (ords : List (List (Option Nat))) : Prop :=
  List.Forall₂ (fun conv ord => IsIterOrder conv.groups ord) cfg.conversions ords

/-- Every group that `group_by_key` returns is one key's bucket of one
single conversion — entries of two distinct conversions never share an
output group. -/
def EachGroupFromOneConversion (cfg : Config) (ords : List (List (Option Nat))) :
    Prop :=
  ∀ gs ∈ cfg.group_by_key_with ords,
    ∃ conv, conv ∈ cfg.conversions ∧ ∃ k, gs = bucket conv.groups k

end Parser

/-!
## Observers and concrete fixtures used by the theorems
-/

/-- The names that occur at least twice in a name list, one entry per
distinct name. -/
def duplicatedNames (names : List String) : List String :=
  names.dedup.filter (fun n => 2 ≤ names.count n)

/-- Whether an `AppError` is a duplicate-name violation. -/
def isDupViolation : AppError → Bool
  | .analysisConfig (.validation (.duplicateNames _)) => true
  | _ => false

/-- Whether an `AnalysisConfigErr` is a duplicate-name violation. -/
def isDupErr : AnalysisConfigErr → Bool
  | .validation (.duplicateNames _) => true
  | _ => false

/-- How many duplicate-name violations a validation result reports. -/
def dupViolationCount : Except (List AppError) Unit → Nat
  | .ok _ => 0
  | .error es => es.countP isDupViolation

/-- The exit code assigned to each failure category by src/error.rs (CLI
args 2, configuration validation 3, configuration parse 5, I/O 4,
extraction 6). -/
def FailureCategory.code : FailureCategory → Int
  | .cliArgs => 2
  | .configValidation => 3
  | .configParse => 5
  | .ioFailure => 4
  | .extraction => 6

/-- A validation result is a structured outcome: success, or a non-empty
list of violations (never a panic — the embedding of `Config::validate` is
a total function). -/
def IsStructuredResult (r : Except (List AppError) Unit) : Prop :=
  r = .ok () ∨ ∃ es, r = .error es ∧ es ≠ []

/-- A filesystem on which every path exists and is a regular file. -/
def fsAllFiles : FS := ⟨fun _ => true, fun _ => true, fun _ => false⟩

/-- A filesystem on which no path exists. -/
def fsEmpty : FS := ⟨fun _ => false, fun _ => false, fun _ => false⟩

/-- A file entry with a `.txt` path and no declared axis. -/
def fileTxt : FileConfig := ⟨"a.txt", none⟩

/-- The group holding just `fileTxt`. -/
def groupTxt : GroupConfig := ⟨[fileTxt]⟩

/-- A K-NET group declaring only the NS and EW axes (UD missing). -/
def groupNsEw : GroupConfig :=
  ⟨[⟨"stationA.ns", some AccAxis.ns⟩, ⟨"stationA.ew", some AccAxis.ew⟩]⟩

/-- A K-NET conversion whose single group misses the UD axis. -/
def convNsEw : ConversionConfig :=
  ⟨"main", From.jpNiedKnet, To.jpStera3dTxt, [groupNsEw]⟩

/-- A K-NET conversion (used to probe `create_extractor`'s `todo!()` arm). -/
def convJp : ConversionConfig := ⟨"main", From.jpNiedKnet, To.jpStera3dTxt, []⟩

/-- A P-Alert SAC conversion (the one arm of `create_extractor` that
returns an extractor). -/
def convTw : ConversionConfig := ⟨"main", From.twPalertSac, To.jpJmaCsv, []⟩

/-- A conversion named `n` with no groups (so name checks are isolated). -/
def mkConv (n : String) : ConversionConfig :=
  ⟨n, From.twPalertSac, To.jpJmaCsv, []⟩

/-- A configuration whose job names are `a, a, b, b`: two distinct
duplicated names. -/
def cfgTwoDups : Config :=
  ⟨⟨NameFormat.yyyymmddHhmmssSnN⟩, [mkConv "a", mkConv "a", mkConv "b", mkConv "b"]⟩

/-- Parser-side global settings fixture. -/
def pGlobal : Parser.PGlobalConfig := ⟨⟨Parser.PNameFormat.yyyymmddHhmmssSnN, false, false⟩⟩

/-- Two parser entries with no grouping key. -/
def gNoKey1 : Parser.Group := ⟨"a.sac", none, none⟩

/-- Second parser entry with no grouping key. -/
def gNoKey2 : Parser.Group := ⟨"b.sac", none, none⟩

/-- A parser configuration with one conversion holding two keyless
entries. -/
def cfgNoKeys : Parser.Config :=
  ⟨[⟨Parser.ConversionFrom.twPalertSac, Parser.ConversionTo.jpJmaCsv,
    [gNoKey1, gNoKey2]⟩], pGlobal⟩

/-- A parser entry with key 1. -/
def gKey1 : Parser.Group := ⟨"a.sac", none, some 1⟩

/-- A parser entry with key 2. -/
def gKey2 : Parser.Group := ⟨"b.sac", none, some 2⟩

/-- A parser configuration with one conversion holding entries keyed 1
and 2. -/
def cfgTwoKeys : Parser.Config :=
  ⟨[⟨Parser.ConversionFrom.twPalertSac, Parser.ConversionTo.jpJmaCsv,
    [gKey1, gKey2]⟩], pGlobal⟩

/-!
## Theorems
-/

/-- C1 (code_bug evidence): the `?` on `validate_file_by_acc_axis` in
`GroupConfig::validate` drops the per-file violations already collected.
For the group whose one file is `a.txt` with no declared axis (on a
filesystem where the path exists as a file), the per-file check alone
reports the `InvalidExtension("ns, ew, ud", "txt")` violation, yet the
group validation returns only the axis violation `RequiredAccAxis` — the
extension violation is gone from the result. -/
theorem axis_early_return_drops_file_violations :
    FileConfig.validate fileTxt fsAllFiles
        (ConversionConfig.assign_ext_based_on_from From.jpNiedKnet)
      = .error [.validation (.invalidExtension "ns, ew, ud" "txt")]
    ∧ GroupConfig.validate groupTxt fsAllFiles From.jpNiedKnet
        (ConversionConfig.assign_ext_based_on_from From.jpNiedKnet) "main" 1
      = .error [.validation (.requiredAccAxis "main" 1)] := by
  exact ⟨rfl, rfl⟩

/-- C2 (code_bug evidence): a JpNiedKnet group declaring only NS and EW
(UD absent) passes the axis-policy check — nothing inspects the leftover
`required_axis` after the loop — and indeed the whole conversion validates
with no violation at all, where the spec requires a missing-axis
violation. -/
theorem missing_ud_axis_passes_validation :
    GroupConfig.validate_file_by_acc_axis groupNsEw From.jpNiedKnet "main" 1
      = .ok ()
    ∧ ConversionConfig.validate convNsEw fsAllFiles = .ok () := by
  exact ⟨rfl, rfl⟩

/-- C3 (code_bug evidence): both keyless entries land in the single
`None` bucket of the `HashMap`, so `group_by_key` returns ONE group
holding both entries, not two singleton groups; `[[none]]` is the only
possible iteration order here, and the result under it has length 1. -/
theorem absent_keys_merge_into_one_group :
    Parser.AdmissibleIterOrders cfgNoKeys [[none]]
    ∧ cfgNoKeys.group_by_key_with [[none]] = [[gNoKey1, gNoKey2]]
    ∧ (cfgNoKeys.group_by_key_with [[none]]).length = 1 := by
  refine ⟨List.Forall₂.cons (by decide) List.Forall₂.nil, by decide, by decide⟩

/-- C4 (code_bug evidence): the output order of `group_by_key` is the
iteration order of a freshly built `std::collections::HashMap`, which is
unspecified (randomly seeded): for the conversion with keys 1 and 2 both
`[some 1, some 2]` and `[some 2, some 1]` are possible iteration orders,
and they yield the returned recordings in different orders. -/
theorem iteration_order_not_deterministic :
    Parser.AdmissibleIterOrders cfgTwoKeys [[some 1, some 2]]
    ∧ Parser.AdmissibleIterOrders cfgTwoKeys [[some 2, some 1]]
    ∧ cfgTwoKeys.group_by_key_with [[some 1, some 2]]
        ≠ cfgTwoKeys.group_by_key_with [[some 2, some 1]] := by
  refine ⟨List.Forall₂.cons (by decide) List.Forall₂.nil,
    List.Forall₂.cons (by decide) List.Forall₂.nil, by decide⟩

/-- C9 (code_bug evidence): for an output-directory path that does not
exist, `Args::validate_output_dir_path` returns a `Path does not exist`
error — it does not create the directory and succeed (the function only
reads the filesystem; its own doc comment promises creation). -/
theorem nonexistent_output_dir_rejected :
    Args.validate_output_dir_path fsEmpty "/out"
      = .error "Multiple validation errors:\nPath does not exist: /out" := by
  rfl

/-- C5 (counterexample): with job names `a, a, b, b` there are two
distinct duplicated names, but validation reports exactly ONE
duplicate-name violation, not one per distinct duplicated name — the scan
returns at the first repeat. -/
theorem dup_names_single_violation_cex :
    duplicatedNames (cfgTwoDups.conversion.map ConversionConfig.name) = ["a", "b"]
    ∧ dupViolationCount (cfgTwoDups.validate fsAllFiles) = 1
    ∧ dupViolationCount (cfgTwoDups.validate fsAllFiles)
        ≠ (duplicatedNames (cfgTwoDups.conversion.map ConversionConfig.name)).length := by
  refine ⟨by decide, by decide, by decide⟩

/-- C6 (counterexample): extraction does not return a structured error on
every path — `create_extractor` panics (`todo!()`) for the JpNiedKnet
variant, and the one extractor it can return panics inside `extract`. -/
theorem extractor_todo_panics_cex :
    create_extractor convJp = .panics
    ∧ Extractor.extract (.twPalertSacExtractor convTw) = .panics := by
  exact ⟨rfl, rfl⟩

/-- `errsOf` of the collect-then-guard pattern returns exactly the
collected list (on the success branch the list is empty anyway). -/
theorem errsOf_guard {ε : Type} (l : List ε) :
    errsOf (if l.isEmpty then Except.ok () else Except.error l) = l := by
  by_cases h : l.isEmpty
  · rw [if_pos h, List.isEmpty_iff.mp h]
    rfl
  · rw [if_neg h]
    rfl

/-- Counting duplicate-name violations through the collect-then-guard
pattern counts them in the collected list. -/
theorem dupViolationCount_guard (l : List AppError) :
    dupViolationCount (if l.isEmpty then Except.ok () else Except.error l)
      = l.countP isDupViolation := by
  by_cases h : l.isEmpty
  · rw [if_pos h, List.isEmpty_iff.mp h]
    rfl
  · rw [if_neg h]
    rfl

/-- The collect-then-guard pattern always yields a structured result:
`Ok(())` or a non-empty error list. -/
theorem structured_of_guard (l : List AppError) :
    IsStructuredResult (if l.isEmpty then Except.ok () else Except.error l) := by
  by_cases h : l.isEmpty
  · rw [if_pos h]
    exact Or.inl rfl
  · rw [if_neg h]
    exact Or.inr ⟨l, rfl, fun hnil => h (by rw [hnil]; rfl)⟩

/-- A mapped `analysisConfig` error is a duplicate-name violation exactly
when the underlying error is. -/
theorem isDupViolation_analysisConfig (e : AnalysisConfigErr) :
    isDupViolation (AppError.analysisConfig e) = isDupErr e := by
  cases e with
  | validation v => cases v <;> rfl
  | parse _ => rfl
  | io _ => rfl

/-- The axis loop emits only `DuplicateAccAxis` and `RequiredAccAxis`
violations — never a duplicate-name violation. -/
theorem acc_axis_loop_no_dup (fmt : From) (name : String) (id : Nat) :
    ∀ (files : List FileConfig) (required : List String),
      ∀ e ∈ acc_axis_loop fmt name id files required, isDupErr e = false := by
  intro files
  induction files with
  | nil =>
    intro required e he
    simp [acc_axis_loop] at he
  | cons file rest ih =>
    intro required e he
    unfold acc_axis_loop at he
    split at he
    · split at he
      · exact ih _ e he
      · rcases List.mem_cons.mp he with h | h
        · subst h
          rfl
        · exact ih _ e h
    · rcases List.mem_cons.mp he with h | h
      · subst h
        rfl
      · exact ih _ e h

/-- The extension check emits only `InvalidExtension` or `NoExtension`. -/
theorem validate_extension_no_dup (f : FileConfig) (exts : List String) :
    ∀ e ∈ errList (f.validate_extension_for_acceptable_exts exts),
      isDupErr e = false := by
  intro e he
  unfold FileConfig.validate_extension_for_acceptable_exts at he
  split at he
  · split at he
    · simp [errList] at he
    · simp [errList] at he
      subst he
      rfl
  · simp [errList] at he
    subst he
    rfl

/-- The path check emits only `PathDoesNotExist` or `PathIsNotFile`. -/
theorem validate_path_no_dup (f : FileConfig) (fs : FS) :
    ∀ e ∈ errList (f.validate_path fs), isDupErr e = false := by
  intro e he
  unfold FileConfig.validate_path at he
  split at he
  · simp [errList] at he
    subst he
    rfl
  · split at he
    · simp [errList] at he
      subst he
      rfl
    · simp [errList] at he

/-- A per-file validation never emits a duplicate-name violation. -/
theorem file_validate_no_dup (f : FileConfig) (fs : FS) (exts : List String) :
    ∀ e ∈ errsOf (f.validate fs exts), isDupErr e = false := by
  intro e he
  simp only [FileConfig.validate, errsOf_guard] at he
  rcases List.mem_append.mp he with h | h
  · exact validate_extension_no_dup f exts e h
  · exact validate_path_no_dup f fs e h

/-- The axis-policy check never emits a duplicate-name violation. -/
theorem axis_check_no_dup (g : GroupConfig) (fmt : From) (name : String) (id : Nat) :
    ∀ e ∈ errsOf (g.validate_file_by_acc_axis fmt name id), isDupErr e = false := by
  intro e he
  simp only [GroupConfig.validate_file_by_acc_axis, errsOf_guard] at he
  split at he
  · exact acc_axis_loop_no_dup fmt name id g.files _ e he
  · rw [List.mem_flatMap] at he
    obtain ⟨file, _, he⟩ := he
    split at he
    · rw [List.mem_singleton.mp he]
      rfl
    · simp at he

/-- A group validation never emits a duplicate-name violation. -/
theorem group_validate_no_dup (g : GroupConfig) (fs : FS) (fmt : From)
    (exts : List String) (name : String) (id : Nat) :
    ∀ e ∈ errsOf (g.validate fs fmt exts name id), isDupErr e = false := by
  intro e he
  unfold GroupConfig.validate at he
  split at he
  · next es heq =>
    apply axis_check_no_dup g fmt name id e
    rw [heq]
    simpa [errsOf] using he
  · rw [errsOf_guard] at he
    rw [List.mem_flatMap] at he
    obtain ⟨file, _, he⟩ := he
    exact file_validate_no_dup file fs exts e he

/-- A conversion validation never emits a duplicate-name violation. -/
theorem conversion_validate_no_dup (c : ConversionConfig) (fs : FS) :
    ∀ e ∈ errsOf (c.validate fs), isDupErr e = false := by
  intro e he
  simp only [ConversionConfig.validate, errsOf_guard] at he
  rw [List.mem_flatMap] at he
  obtain ⟨p, _, he⟩ := he
  exact group_validate_no_dup _ _ _ _ _ _ e he

/-- The duplicate-name scan succeeds exactly when the names (prefixed by
the already-inserted set) are duplicate-free. -/
theorem validate_duplicate_name_loop_ok (names : List String) :
    ∀ seen : List String, seen.Nodup →
      ((validate_duplicate_name_loop names seen = .ok ())
        ↔ (seen ++ names).Nodup) := by
  induction names with
  | nil =>
    intro seen h
    simp [validate_duplicate_name_loop, h]
  | cons name rest ih =>
    intro seen h
    unfold validate_duplicate_name_loop
    by_cases hc : seen.contains name
    · rw [if_pos hc]
      constructor
      · intro h'
        simp at h'
      · intro hnd
        exfalso
        have hmem : name ∈ seen := by simpa using hc
        rw [List.nodup_append] at hnd
        exact hnd.2.2 hmem (List.mem_cons_self name rest)
    · rw [if_neg hc]
      have hname : name ∉ seen := by simpa using hc
      have hseen' : (seen ++ [name]).Nodup := by
        rw [List.nodup_append]
        refine ⟨h, List.nodup_singleton name, ?_⟩
        intro a ha hb
        rw [List.mem_singleton] at hb
        subst hb
        exact hname ha
      rw [ih (seen ++ [name]) hseen', List.append_assoc, List.singleton_append]

/-- When the duplicate-name scan fails, the error is a `DuplicateNames`
violation. -/
theorem validate_duplicate_name_loop_error (names : List String) :
    ∀ (seen : List String) (e : AnalysisConfigErr),
      validate_duplicate_name_loop names seen = .error e → isDupErr e = true := by
  induction names with
  | nil =>
    intro seen e h
    simp [validate_duplicate_name_loop] at h
  | cons name rest ih =>
    intro seen e h
    unfold validate_duplicate_name_loop at h
    by_cases hc : seen.contains name
    · rw [if_pos hc] at h
      have heq : AnalysisConfigErr.validation
          (.duplicateNames (hashset_to_string seen)) = e := by
        injection h
      rw [← heq]
      rfl
    · rw [if_neg hc] at h
      exact ih _ _ h

/-- C5 (amended): validation reports exactly one duplicate-name violation
when the job-name list has any repeat, and none when the names are
duplicate-free — never one violation per distinct duplicated name. -/
theorem dup_names_at_most_one_violation (fs : FS) (cfg : Config) :
    dupViolationCount (cfg.validate fs)
      = if (cfg.conversion.map ConversionConfig.name).Nodup then 0 else 1 := by
  simp only [Config.validate, dupViolationCount_guard]
  rw [List.countP_append]
  have h1 : (cfg.conversion.flatMap (fun conv =>
      (errsOf (conv.validate fs)).map AppError.analysisConfig)).countP
        isDupViolation = 0 := by
    rw [List.countP_eq_zero]
    intro a ha
    rw [List.mem_flatMap] at ha
    obtain ⟨conv, _, ha⟩ := ha
    rw [List.mem_map] at ha
    obtain ⟨e, he, rfl⟩ := ha
    rw [isDupViolation_analysisConfig, conversion_validate_no_dup conv fs e he]
    simp
  rw [h1]
  cases hdup : Config.validate_duplicate_name (cfg.conversion.map ConversionConfig.name) with
  | ok u =>
    cases u
    have hnodup : (cfg.conversion.map ConversionConfig.name).Nodup := by
      have := (validate_duplicate_name_loop_ok
        (cfg.conversion.map ConversionConfig.name) [] List.nodup_nil).mp hdup
      simpa using this
    rw [if_pos hnodup]
    rfl
  | error e =>
    have hdupE : isDupErr e = true :=
      validate_duplicate_name_loop_error _ [] e hdup
    have hnotnodup : ¬ (cfg.conversion.map ConversionConfig.name).Nodup := by
      intro hnd
      have hok := (validate_duplicate_name_loop_ok
        (cfg.conversion.map ConversionConfig.name) [] List.nodup_nil).mpr
        (by simpa using hnd)
      rw [Config.validate_duplicate_name] at hdup
      rw [hok] at hdup
      simp at hdup
    rw [if_neg hnotnodup]
    simp [errList, List.countP_cons, isDupViolation_analysisConfig, hdupE]

/-- C6 (amended): for every filesystem and configuration, `validate`
returns a structured result (success or a non-empty violation list — the
embedding is a total function, mirroring the absence of panicking
operations in the validation code), while extraction is unimplemented:
`create_extractor` either panics outright (`todo!()` on five of the six
source formats) or returns the TwPalertSac extractor whose `extract`
panics (`todo!()`). -/
theorem validate_structured_extract_unimplemented (fs : FS) (cfg : Config)
    (c : ConversionConfig) :
    IsStructuredResult (cfg.validate fs)
    ∧ (create_extractor c = .panics
      ∨ ∃ ex, create_extractor c = .value ex ∧ ex.extract = .panics) := by
  constructor
  · exact structured_of_guard _
  · cases h : c.«from» with
    | jpNiedKnet => exact Or.inl (by unfold create_extractor; rw [h])
    | usScsnV2 => exact Or.inl (by unfold create_extractor; rw [h])
    | nzGeonetV1a => exact Or.inl (by unfold create_extractor; rw [h])
    | nzGeonetV2a => exact Or.inl (by unfold create_extractor; rw [h])
    | twPalertSac =>
      exact Or.inr ⟨.twPalertSacExtractor c,
        by unfold create_extractor; rw [h], rfl⟩
    | tkAfadAsc => exact Or.inl (by unfold create_extractor; rw [h])

/-- Consing an entry `g` onto the grouped list moves `g` to the front of
its key's bucket and leaves all other buckets unchanged; flattening over
any duplicate-free key order containing `g`'s key therefore yields `g`
followed by a flattening for the remaining entries, up to permutation. -/
theorem flatten_map_bucket_cons (g : Parser.Group) (rest : List Parser.Group)
    (ord : List (Option Nat)) (hnd : ord.Nodup) (hmem : g.g_key ∈ ord) :
    List.Perm ((ord.map (fun k => Parser.bucket (g :: rest) k)).flatten)
      (g :: (ord.map (fun k => Parser.bucket rest k)).flatten) := by
  induction ord with
  | nil => cases hmem
  | cons k ks ih =>
    rw [List.nodup_cons] at hnd
    obtain ⟨hk_notin, hks⟩ := hnd
    rw [List.map_cons, List.flatten_cons, List.map_cons, List.flatten_cons]
    by_cases hgk : g.g_key = k
    · have hhead : Parser.bucket (g :: rest) k = g :: Parser.bucket rest k := by
        unfold Parser.bucket
        rw [List.filter_cons]
        simp [hgk]
      have htail : ks.map (fun k' => Parser.bucket (g :: rest) k')
          = ks.map (fun k' => Parser.bucket rest k') := by
        apply List.map_congr_left
        intro k' hk'
        unfold Parser.bucket
        rw [List.filter_cons]
        have hne : (g.g_key == k') = false := by
          rw [beq_eq_false_iff_ne]
          intro he
          apply hk_notin
          rw [← hgk, he]
          exact hk'
        simp [hne]
      rw [hhead, htail, List.cons_append]
    · have hhead : Parser.bucket (g :: rest) k = Parser.bucket rest k := by
        unfold Parser.bucket
        rw [List.filter_cons]
        have hne : (g.g_key == k) = false := beq_eq_false_iff_ne.mpr hgk
        simp [hne]
      have hmem' : g.g_key ∈ ks := by
        cases hmem with
        | head => exact absurd rfl hgk
        | tail _ h => exact h
      rw [hhead]
      exact ((ih hks hmem').append_left _).trans List.perm_middle

/-- Flattening the buckets of a duplicate-free key order covering every key
of `groups` recovers `groups` up to permutation: grouping loses and
duplicates nothing. -/
theorem flatten_map_bucket_perm (groups : List Parser.Group)
    (ord : List (Option Nat)) (hnd : ord.Nodup)
    (hcov : ∀ k ∈ groups.map Parser.Group.g_key, k ∈ ord) :
    List.Perm ((ord.map (fun k => Parser.bucket groups k)).flatten) groups := by
  induction groups with
  | nil =>
    have hmap : ord.map (fun k => Parser.bucket ([] : List Parser.Group) k)
        = ord.map (fun _ => ([] : List Parser.Group)) := by
      apply List.map_congr_left
      intro k _
      rfl
    rw [hmap]
    simp
  | cons g rest ih =>
    have hg : g.g_key ∈ ord := hcov _ (by simp)
    have h2 := ih (fun k hk => hcov k (by rw [List.map_cons]; exact List.mem_cons_of_mem _ hk))
    exact (flatten_map_bucket_cons g rest ord hnd hg).trans (h2.cons g)

/-- Under any admissible family of iteration orders, the flattening of
`group_by_key`'s output over one conversion list is a permutation of the
concatenation of the conversions' entry lists. -/
theorem group_by_key_flatten_perm_aux (conversions : List Parser.Conversion)
    (ords : List (List (Option Nat)))
    (h : List.Forall₂ (fun conv ord => Parser.IsIterOrder conv.groups ord)
      conversions ords) :
    List.Perm
      (((conversions.zip ords).flatMap
        (fun p => p.2.map (fun k => Parser.bucket p.1.groups k))).flatten)
      (conversions.flatMap Parser.Conversion.groups) := by
  induction h with
  | nil => simp
  | @cons conv ord convs ords' h₁ _h₂ ih =>
    rw [List.zip_cons_cons, List.flatMap_cons, List.flatten_append, List.flatMap_cons]
    obtain ⟨hnd, _, hcov⟩ := h₁
    exact (flatten_map_bucket_perm conv.groups ord hnd hcov).append ih

/-- C10: `group_by_key` partitions its input. For every parser `Config` and
every admissible family of `HashMap` iteration orders, the concatenation of
the returned groups is a permutation of the concatenation of all
conversions' entries (no entry lost or duplicated), and every returned
group is one key's bucket of one single conversion (entries of two distinct
conversions never land in the same output group). -/
theorem group_by_key_partitions (cfg : Parser.Config)
    (ords : List (List (Option Nat))) (h : Parser.AdmissibleIterOrders cfg ords) :
    List.Perm (cfg.group_by_key_with ords).flatten
      (cfg.conversions.flatMap Parser.Conversion.groups)
    ∧ Parser.EachGroupFromOneConversion cfg ords := by
  constructor
  · exact group_by_key_flatten_perm_aux cfg.conversions ords h
  · intro gs hgs
    unfold Parser.Config.group_by_key_with at hgs
    rw [List.mem_flatMap] at hgs
    obtain ⟨p, hp, hgs⟩ := hgs
    obtain ⟨hp1, _⟩ := List.of_mem_zip hp
    rw [List.mem_map] at hgs
    obtain ⟨k, _, hk⟩ := hgs
    exact ⟨p.1, hp1, k, hk.symm⟩

/-- Every `AppError`'s exit code is its failure category's code. -/
theorem exit_code_eq_category_code (e : AppError) :
    e.exit_code = e.category.code := by
  cases e with
  | cli e => cases e; rfl
  | analysisConfig e => cases e <;> rfl
  | analysis e => cases e; rfl

/-- The five category codes are pairwise distinct. -/
theorem category_code_injective (c₁ c₂ : FailureCategory)
    (h : c₁.code = c₂.code) : c₁ = c₂ := by
  revert h
  cases c₁ <;> cases c₂ <;> decide

/-- C8: process exit codes are pairwise distinct per failure category: two
`AppError`s of different categories (CLI/args validation, configuration
validation, configuration parse, I/O, extraction) always carry different
`exit_code` values. -/
theorem exit_codes_distinct_per_category (e₁ e₂ : AppError)
    (h : e₁.category ≠ e₂.category) : e₁.exit_code ≠ e₂.exit_code := by
  rw [exit_code_eq_category_code, exit_code_eq_category_code]
  intro hc
  exact h (category_code_injective _ _ hc)

/-- C8 witness: a CLI-validation error and a configuration-parse error get
different exit codes. -/
theorem exit_codes_distinct_witness :
    (AppError.cli (.validation (.noExtension "input"))).exit_code
      ≠ (AppError.analysisConfig (.parse "bad toml")).exit_code :=
  exit_codes_distinct_per_category _ _ (by decide)

/-- C7: the per-entry extension check. `validate_extension_for_acceptable_exts`
succeeds exactly when the path has an extension whose lowercasing is in the
acceptable set (case-insensitive comparison); a path with no extension
yields `NoExtension(path)`; a mismatched extension yields
`InvalidExtension(expected set joined by a comma, actual lowercased
extension)` — concretely `InvalidExtension("ns, ew, ud", "txt")` for a
`.txt` file under JpNiedKnet, while an upper-case `.NS` file passes. -/
theorem extension_check_characterization (f : FileConfig)
    (acceptable_exts : List String) :
    (FileConfig.validate_extension_for_acceptable_exts f acceptable_exts = .ok ()
      ↔ ∃ e, extensionOf f.path = some e
          ∧ acceptable_exts.contains (to_lowercase e) = true)
    ∧ (extensionOf f.path = none →
        FileConfig.validate_extension_for_acceptable_exts f acceptable_exts
          = .error (.validation (.noExtension f.path)))
    ∧ (∀ e, extensionOf f.path = some e →
        acceptable_exts.contains (to_lowercase e) = false →
        FileConfig.validate_extension_for_acceptable_exts f acceptable_exts
          = .error (.validation (.invalidExtension
              (String.intercalate ", " acceptable_exts) (to_lowercase e))))
    ∧ FileConfig.validate_extension_for_acceptable_exts ⟨"stationA.txt", none⟩
        (ConversionConfig.assign_ext_based_on_from From.jpNiedKnet)
      = .error (.validation (.invalidExtension "ns, ew, ud" "txt"))
    ∧ FileConfig.validate_extension_for_acceptable_exts
        ⟨"stationA.NS", some AccAxis.ns⟩
        (ConversionConfig.assign_ext_based_on_from From.jpNiedKnet)
      = .ok () := by
  refine ⟨?_, ?_, ?_, by rfl, by rfl⟩
  · unfold FileConfig.validate_extension_for_acceptable_exts
    cases h : extensionOf f.path with
    | none => simp [h]
    | some e =>
      by_cases hc : acceptable_exts.contains (to_lowercase e)
      · simp [h, hc]
      · simp [h, hc]
  · intro h
    unfold FileConfig.validate_extension_for_acceptable_exts
    rw [h]
    rfl
  · intro e he hc
    have hne : to_lowercase e ∉ acceptable_exts := by simpa using hc
    unfold FileConfig.validate_extension_for_acceptable_exts
    rw [he]
    simp [hc, hne]

/-- C7 witness: the characterization applied to the spec's end-to-end
example `stationA.txt` under JpNiedKnet: the mismatch case yields
`InvalidExtension("ns, ew, ud", "txt")`. -/
theorem extension_check_characterization_witness :
    FileConfig.validate_extension_for_acceptable_exts ⟨"stationA.txt", none⟩
        (ConversionConfig.assign_ext_based_on_from From.jpNiedKnet)
      = .error (.validation (.invalidExtension "ns, ew, ud" "txt")) :=
  (extension_check_characterization ⟨"stationA.txt", none⟩
    (ConversionConfig.assign_ext_based_on_from From.jpNiedKnet)).2.2.1
    "txt" (by decide) (by decide)

/-- C10 witness: the partition theorem applied to the concrete two-key
configuration with the iteration order `[some 1, some 2]`. -/
theorem group_by_key_partitions_witness :
    List.Perm (cfgTwoKeys.group_by_key_with [[some 1, some 2]]).flatten
      (cfgTwoKeys.conversions.flatMap Parser.Conversion.groups)
    ∧ Parser.EachGroupFromOneConversion cfgTwoKeys [[some 1, some 2]] :=
  group_by_key_partitions cfgTwoKeys [[some 1, some 2]]
    (List.Forall₂.cons (by decide) List.Forall₂.nil)

end Naifuru
